import Mathlib

/-!
Shallow embedding of the forum-service repository (Go) and proofs about it.

The embedding covers:
* the domain model (`Message`, `Comment`, `User`) from `internal/domain`;
* the SQLite-backed `MessageRepository` from `internal/repository`
  (success path of each SQL statement, timestamps as integers — RFC3339
  strings of UTC instants compare lexicographically exactly as the
  instants compare);
* the `MessageUseCase` lifecycle manager (content check, auth gate,
  persistence, broadcast), with an explicit effect trace recording the
  auth lookups, persistence calls and broadcast events a call performs;
* the WebSocket `Hub` (register / unregister / broadcast fan-out with
  non-blocking enqueue onto bounded per-session queues).
-/

namespace Forum

/-- `domain.Message`: a top-level post. -/
structure Message where
  id : Int
  userId : Int
  username : String
  content : String
  createdAt : Int
  isBanned : Bool
  deriving Repr, DecidableEq

/-- `domain.Comment`: a reply attached to one message, with an expiry instant. -/
structure Comment where
  id : Int
  messageId : Int
  userId : Int
  username : String
  content : String
  createdAt : Int
  expiresAt : Int
  deriving Repr, DecidableEq

/-- `domain.User`: read-only projection returned by the auth collaborator. -/
structure User where
  id : Int
  username : String
  role : String
  isBanned : Bool
  deriving Repr, DecidableEq

/-- The persistent store: the `messages` and `comments` tables plus the
SQLite AUTOINCREMENT counters that assign fresh row ids. -/
structure Store where
  messages : List Message
  comments : List Comment
  nextMessageId : Int
  nextCommentId : Int
  deriving Repr, DecidableEq

/-- `domain.Message.Validate`: non-blank content and username, content at
most 1000 characters. -/
def Message.validate (m : Message) : Except String Unit :=
  if (m.content.trim = "") then .error "content cannot be empty"
  else if (m.username.trim = "") then .error "username cannot be empty"
  else if m.content.length > 1000 then .error "content too long"
  else .ok ()

/-- `domain.Comment.Validate`: non-blank content and username, content at
most 500 characters, positive parent message id. -/
def Comment.validate (c : Comment) : Except String Unit :=
  if (c.content.trim = "") then .error "content cannot be empty"
  else if (c.username.trim = "") then .error "username cannot be empty"
  else if c.content.length > 500 then .error "comment too long"
  else if c.messageId ≤ 0 then .error "invalid message ID"
  else .ok ()

/-- The comment TTL hard-coded in `MessageRepository.CreateComment`:
`5 * time.Minute`, in seconds. -/
def commentTTL : Int := 5 * 60

/-- `MessageRepository.GetByID`: `SELECT ... FROM messages WHERE id = ?`;
`sql.ErrNoRows` is mapped to the error string "message not found". -/
def getByID (s : Store) (id : Int) : Except String Message :=
  match s.messages.find? (fun m => m.id == id) with
  | some m => .ok m
  | none => .error "message not found"

/-- Insertion step for `ORDER BY created_at DESC`. -/
def insertMsgDesc (m : Message) : List Message → List Message
  | [] => [m]
  | x :: xs => if m.createdAt ≤ x.createdAt then x :: insertMsgDesc m xs else m :: x :: xs

/-- `ORDER BY created_at DESC` over the `messages` table. -/
def sortMsgsDesc (l : List Message) : List Message :=
  l.foldr insertMsgDesc []

/-- `MessageRepository.List`: `SELECT COUNT(*) FROM messages` for the total,
then `SELECT ... FROM messages ORDER BY created_at DESC LIMIT ? OFFSET ?`.
Neither query has an `is_banned` filter. -/
def listMessages (s : Store) (limit offset : Int) : List Message × Int :=
  (((sortMsgsDesc s.messages).drop offset.toNat).take limit.toNat,
   (s.messages.length : Int))

/-- `MessageRepository.GetAllMessages`:
`SELECT ... FROM messages ORDER BY created_at DESC`, no filter. -/
def getAllMessages (s : Store) : List Message :=
  sortMsgsDesc s.messages

/-- `MessageRepository.Create`: sets `created_at = now`, inserts the row and
returns the row with its assigned id, together with the new store. -/
def createMessageRepo (s : Store) (now : Int) (m0 : Message) : Message × Store :=
  let m := { m0 with id := s.nextMessageId, createdAt := now }
  (m, { s with messages := s.messages ++ [m], nextMessageId := s.nextMessageId + 1 })

/-- `MessageRepository.Ban`: `UPDATE messages SET is_banned = 1 WHERE id = ?`
(no error when the id is absent: the UPDATE simply touches zero rows). -/
def banRepo (s : Store) (id : Int) : Store :=
  { s with messages :=
      s.messages.map (fun m => if m.id == id then { m with isBanned := true } else m) }

/-- `MessageRepository.Unban`: `UPDATE messages SET is_banned = 0 WHERE id = ?`. -/
def unbanRepo (s : Store) (id : Int) : Store :=
  { s with messages :=
      s.messages.map (fun m => if m.id == id then { m with isBanned := false } else m) }

/-- `MessageRepository.CreateComment`: checks the parent message via
`GetByID`, sets `created_at = now` and `expires_at = now + 5min`, inserts. -/
def createCommentRepo (s : Store) (now : Int) (c0 : Comment) :
    Except String (Comment × Store) :=
  match getByID s c0.messageId with
  | .error e => .error e
  | .ok _ =>
    let c := { c0 with id := s.nextCommentId, createdAt := now,
                       expiresAt := now + commentTTL }
    .ok (c, { s with comments := s.comments ++ [c],
                     nextCommentId := s.nextCommentId + 1 })

/-- Insertion step for `ORDER BY created_at ASC`. -/
def insertCmtAsc (c : Comment) : List Comment → List Comment
  | [] => [c]
  | x :: xs => if x.createdAt ≤ c.createdAt then x :: insertCmtAsc c xs else c :: x :: xs

/-- `ORDER BY created_at ASC` over comment rows. -/
def sortCmtsAsc (l : List Comment) : List Comment :=
  l.foldr insertCmtAsc []

/-- `MessageRepository.GetComments`: first checks the parent message via
`GetByID` (propagating its "message not found" error), then
`SELECT ... FROM comments WHERE message_id = ? AND expires_at > ? ORDER BY created_at ASC`
with `?` = now. -/
def getComments (s : Store) (messageId now : Int) : Except String (List Comment) :=
  match getByID s messageId with
  | .error e => .error e
  | .ok _ =>
    .ok (sortCmtsAsc (s.comments.filter
      (fun c => c.messageId == messageId && decide (now < c.expiresAt))))

/-- `MessageRepository.Delete`: `DELETE FROM comments WHERE message_id = ?`
then `DELETE FROM messages WHERE id = ?`. -/
def deleteMessageRepo (s : Store) (id : Int) : Store :=
  { s with comments := s.comments.filter (fun c => c.messageId != id),
           messages := s.messages.filter (fun m => m.id != id) }

/-- `MessageRepository.GetCommentByID`:
`SELECT ... FROM comments WHERE id = ?`; no expiry filter;
`sql.ErrNoRows` is mapped to the error string "comment not found". -/
def getCommentByID (s : Store) (id : Int) : Except String Comment :=
  match s.comments.find? (fun c => c.id == id) with
  | some c => .ok c
  | none => .error "comment not found"

/-- `MessageRepository.DeleteComment`: `DELETE FROM comments WHERE id = ?`. -/
def deleteCommentRepo (s : Store) (id : Int) : Store :=
  { s with comments := s.comments.filter (fun c => c.id != id) }

/-- `MessageRepository.DeleteExpiredComments`:
`DELETE FROM comments WHERE expires_at <= ?` with `?` = now.
The `sql.Result` (and hence any affected-rows count) is discarded;
the Go function returns only `error`. -/
def deleteExpiredComments (s : Store) (now : Int) : Store :=
  { s with comments := s.comments.filter (fun c => decide (now < c.expiresAt)) }

/-! ## The `MessageUseCase` lifecycle manager

Embedded from `MessageUseCase` in package `usecase` (the implementation
wired in `main` via `usecase.NewMessageUseCase` and broadcast through the
hub).  Calls against the auth collaborator are modelled by a lookup table
`AuthDB : Int → Option User`; `none` covers both an unresolvable user and
a failed/timed-out lookup (the Go code treats every `GetUser` error the
same way: it aborts the operation).  Each operation returns its result,
the resulting store, and the trace of side effects it performed, in
order. -/

/-- One observable side effect of a use-case operation. -/
inductive Effect where
  | lookupUser (userId : Int)
  | persistMessage (m : Message)
  | persistComment (c : Comment)
  | broadcast (m : Message)
  deriving Repr, DecidableEq

/-- The auth collaborator: `GetUser` as a partial lookup table. -/
abbrev AuthDB : Type := Int → Option User

/-- Result of a use-case operation: outcome, new store, effect trace. -/
structure UCOut (α : Type) where
  result : Except String α
  store : Store
  effects : List Effect
  deriving Repr

/-- `MessageUseCase.CreateMessage`: rejects only `content == ""`; for
`userID != 0` performs the auth lookup and aborts on a failed lookup or a
banned user; then persists with `IsBanned = false` and broadcasts the
created message.  For `userID == 0` the lookup is skipped. -/
def createMessageUC (auth : AuthDB) (s : Store) (now : Int) (userID : Int)
    (username content : String) : UCOut Message :=
  if content = "" then ⟨.error "content is required", s, []⟩
  else
    let persist : List Effect → UCOut Message := fun pre =>
      let (m, s') := createMessageRepo s now
        { id := 0, userId := userID, username := username, content := content,
          createdAt := now, isBanned := false }
      ⟨.ok m, s', pre ++ [.persistMessage m, .broadcast m]⟩
    if userID = 0 then persist []
    else
      match auth userID with
      | none => ⟨.error "user not found", s, [.lookupUser userID]⟩
      | some u =>
        if u.isBanned then ⟨.error "user is banned", s, [.lookupUser userID]⟩
        else persist [.lookupUser userID]

/-- `MessageUseCase.CreateComment`: same content check and auth gate as
`CreateMessage`, then `repo.CreateComment` (which itself checks that the
parent message exists).  No broadcast: comments are not part of the live
feed. -/
def createCommentUC (auth : AuthDB) (s : Store) (now : Int)
    (messageID userID : Int) (username content : String) : UCOut Comment :=
  if content = "" then ⟨.error "content is required", s, []⟩
  else
    let persist : List Effect → UCOut Comment := fun pre =>
      match createCommentRepo s now
        { id := 0, messageId := messageID, userId := userID,
          username := username, content := content,
          createdAt := now, expiresAt := 0 } with
      | .error e => ⟨.error e, s, pre⟩
      | .ok (c, s') => ⟨.ok c, s', pre ++ [.persistComment c]⟩
    if userID = 0 then persist []
    else
      match auth userID with
      | none => ⟨.error "user not found", s, [.lookupUser userID]⟩
      | some u =>
        if u.isBanned then ⟨.error "user is banned", s, [.lookupUser userID]⟩
        else persist [.lookupUser userID]

/-- `MessageUseCase.BanMessage`: looks the message up (propagating the
repository's "message not found" error), then `repo.Ban`, then broadcasts
the message with `IsBanned = true`. -/
def banMessageUC (s : Store) (id : Int) : UCOut Unit :=
  match getByID s id with
  | .error e => ⟨.error e, s, []⟩
  | .ok m => ⟨.ok (), banRepo s id, [.broadcast { m with isBanned := true }]⟩

/-- `MessageUseCase.UnbanMessage`: symmetric to `BanMessage`, broadcasting
the message with `IsBanned = false`. -/
def unbanMessageUC (s : Store) (id : Int) : UCOut Unit :=
  match getByID s id with
  | .error e => ⟨.error e, s, []⟩
  | .ok m => ⟨.ok (), unbanRepo s id, [.broadcast { m with isBanned := false }]⟩

/-- `MessageUseCase.GetComments`: direct delegation to the repository. -/
def getCommentsUC (s : Store) (messageId now : Int) : Except String (List Comment) :=
  getComments s messageId now

/-- `MessageUseCase.CleanupExpiredComments`: calls
`repo.DeleteExpiredComments` and returns only success or failure — the
number of removed rows is not observed anywhere. -/
def cleanupExpiredCommentsUC (s : Store) (now : Int) : Except String Unit × Store :=
  (.ok (), deleteExpiredComments s now)

/-! ## The WebSocket hub

Embedded from `ws.Hub.Run`.  The live set is the coordinator-owned
`clients` map; each client owns a bounded outbound queue (the buffered
`send` channel).  A hub state is the list of registered clients; client
identity (the Go map key is the `*Client` pointer) is modelled by `sid`. -/

/-- One registered client session: identity, queue capacity, queue. -/
structure HClient where
  sid : Nat
  cap : Nat
  queue : List String
  deriving Repr, DecidableEq

/-- The hub's live set. -/
abbrev HubState : Type := List HClient

/-- Find the registered client with the given session id. -/
def lookupClient (h : HubState) (sid : Nat) : Option HClient :=
  h.find? (fun c => c.sid == sid)

/-- `case client := <-h.register`: `h.clients[client] = true` — a map
insert, a no-op when the session is already registered. -/
def hubRegister (h : HubState) (c : HClient) : HubState :=
  if (lookupClient h c.sid).isSome then h else h ++ [c]

/-- `case client := <-h.unregister`: delete the session from the map if
present (the presence check only guards the channel close). -/
def hubUnregister (h : HubState) (sid : Nat) : HubState :=
  h.filter (fun c => c.sid != sid)

/-- `case message := <-h.broadcast`: for every registered client, a
non-blocking send onto its bounded queue; on a full queue the client is
dropped from the live set (and its channel closed) instead of blocking. -/
def hubPublish (h : HubState) (e : String) : HubState :=
  h.filterMap (fun c =>
    if c.queue.length < c.cap then some { c with queue := c.queue ++ [e] }
    else none)

/-- A sequence of broadcasts, processed in order. -/
def hubPublishAll (h : HubState) (es : List String) : HubState :=
  es.foldl hubPublish h

/-! ## Helper lemmas -/

theorem mem_insertCmtAsc {a c : Comment} {l : List Comment} :
    a ∈ insertCmtAsc c l ↔ a = c ∨ a ∈ l := by
  induction l with
  | nil => simp [insertCmtAsc]
  | cons x xs ih =>
    simp only [insertCmtAsc]
    split
    · simp only [List.mem_cons, ih]
      tauto
    · simp only [List.mem_cons]

theorem mem_sortCmtsAsc {a : Comment} {l : List Comment} :
    a ∈ sortCmtsAsc l ↔ a ∈ l := by
  induction l with
  | nil => simp [sortCmtsAsc]
  | cons x xs ih =>
    simp only [sortCmtsAsc, List.foldr] at ih ⊢
    rw [mem_insertCmtAsc, ih, List.mem_cons]

theorem find_map_setBanned {l : List Message} {id : Int} {m : Message} (b : Bool)
    (h : l.find? (fun x => x.id == id) = some m) :
    (l.map (fun x => if x.id == id then { x with isBanned := b } else x)).find?
        (fun x => x.id == id) = some { m with isBanned := b } := by
  induction l with
  | nil => simp at h
  | cons x xs ih =>
    by_cases hx : x.id = id
    · have hx' : (x.id == id) = true := by simpa using hx
      rw [List.find?_cons_of_pos (p := fun (y : Message) => y.id == id) _ hx'] at h
      injection h with h
      subst h
      simp only [List.map_cons, if_pos hx']
      exact List.find?_cons_of_pos (p := fun (y : Message) => y.id == id) _ hx'
    · have hx' : ¬ ((x.id == id) = true) := by simpa using hx
      rw [List.find?_cons_of_neg (p := fun (y : Message) => y.id == id) _ hx'] at h
      simp only [List.map_cons, if_neg hx']
      rw [List.find?_cons_of_neg (p := fun (y : Message) => y.id == id) _ hx']
      exact ih h

theorem lookupClient_publish_none {h : HubState} {sid : Nat} {e : String}
    (hn : lookupClient h sid = none) :
    lookupClient (hubPublish h e) sid = none := by
  have hall := List.find?_eq_none.mp hn
  apply List.find?_eq_none.mpr
  intro x hx
  obtain ⟨a, ha, hax⟩ := List.mem_filterMap.mp hx
  by_cases hq : a.queue.length < a.cap
  · rw [if_pos hq] at hax
    injection hax with hax
    subst hax
    exact hall a ha
  · rw [if_neg hq] at hax
    cases hax

theorem lookupClient_publishAll_none {sid : Nat} :
    ∀ (es : List String) (h : HubState), lookupClient h sid = none →
      lookupClient (hubPublishAll h es) sid = none := by
  intro es
  induction es with
  | nil => intro h hn; exact hn
  | cons e es ih =>
    intro h hn
    exact ih (hubPublish h e) (lookupClient_publish_none hn)

/-! ## Concrete fixtures for witnesses and counterexamples -/

/-- A store with no rows. -/
def storeEmpty : Store :=
  { messages := [], comments := [], nextMessageId := 1, nextCommentId := 1 }

/-- A banned message row. -/
def mBanned : Message :=
  { id := 1, userId := 0, username := "u", content := "hello",
    createdAt := 10, isBanned := true }

/-- A store holding exactly one message, and that message is banned. -/
def storeBanned : Store :=
  { messages := [mBanned], comments := [], nextMessageId := 2, nextCommentId := 1 }

/-- A live (non-banned) parent message row. -/
def msgParent : Message :=
  { id := 1, userId := 0, username := "u", content := "m",
    createdAt := 5, isBanned := false }

/-- A store holding one message and no comments. -/
def storeParent : Store :=
  { messages := [msgParent], comments := [], nextMessageId := 2, nextCommentId := 1 }

/-- A comment whose expiry instant (50) is in the past at time 100. -/
def cmtExpired : Comment :=
  { id := 1, messageId := 1, userId := 0, username := "u", content := "c",
    createdAt := 10, expiresAt := 50 }

/-- A comment still live at time 100 (expiry 200). -/
def cmtLive : Comment :=
  { id := 2, messageId := 1, userId := 0, username := "u", content := "ok",
    createdAt := 10, expiresAt := 200 }

/-- A store with one message and one already-expired comment. -/
def storeExpired : Store :=
  { messages := [msgParent], comments := [cmtExpired],
    nextMessageId := 2, nextCommentId := 2 }

/-- A store with one message and one live comment. -/
def storeLive : Store :=
  { messages := [msgParent], comments := [cmtLive],
    nextMessageId := 2, nextCommentId := 3 }

/-- A store with one message and two expired comments (expiry 10 and 20). -/
def storeTwoExpired : Store :=
  { messages := [msgParent],
    comments := [{ cmtExpired with id := 3, expiresAt := 10 },
                 { cmtExpired with id := 4, expiresAt := 20 }],
    nextMessageId := 2, nextCommentId := 5 }

/-! ## C1 — `getMessages` and the banned flag

The spec claims `getMessages` returns only non-banned messages and that
`totalCount` counts only non-banned rows.  `MessageRepository.List` runs
`SELECT COUNT(*) FROM messages` and
`SELECT ... FROM messages ORDER BY created_at DESC LIMIT ? OFFSET ?`:
neither statement filters on `is_banned`, so a banned message is returned
and counted. -/

/-- C1: on a store whose only message is banned, `getMessages(10, 0)`
returns that banned message and reports `totalCount = 1`, while the claim
demands the empty list and count 0; `getAllMessages` also returns it (that
part of the claim matches the code). -/
theorem C1_list_returns_banned :
    listMessages storeBanned 10 0 = ([mBanned], 1) ∧
    mBanned.isBanned = true ∧
    getAllMessages storeBanned = [mBanned] := by
  refine ⟨rfl, rfl, rfl⟩

/-! ## C2 — expired comments and the read operations

`GetComments` filters with `expires_at > now`, so it never returns an
expired comment.  `GetCommentByID` has no expiry filter at all: before the
sweep has physically removed an expired row, `GetCommentByID` returns it,
contradicting the claim.  After the sweep the row is gone, so every
comment `GetCommentByID` can return satisfies `now < expiresAt`. -/

/-- C2 counterexample: at time 100 the stored comment has `expiresAt = 50`
(already expired, not yet swept), and `getCommentById` returns it — a
comment-returning read operation hands out a comment with
`now ≥ expiresAt`. -/
theorem C2_getCommentById_returns_expired :
    getCommentByID storeExpired 1 = .ok cmtExpired ∧
    cmtExpired.expiresAt ≤ 100 := by
  refine ⟨rfl, by decide⟩

/-- C2 (amended): `getComments` never returns a comment with
`now ≥ expiresAt`; `getCommentById` enforces no expiry filter of its own,
but once the sweep (`deleteExpiredComments`) has run at time `now`, every
comment it can still return satisfies `now < expiresAt`. -/
theorem C2_reads_respect_expiry (s : Store) (mid cid now : Int) :
    (∀ cs, getComments s mid now = .ok cs → ∀ c ∈ cs, now < c.expiresAt) ∧
    (∀ c, getCommentByID (deleteExpiredComments s now) cid = .ok c →
      now < c.expiresAt) := by
  constructor
  · intro cs hcs c hc
    unfold getComments at hcs
    cases hget : getByID s mid with
    | error e => rw [hget] at hcs; cases hcs
    | ok m =>
      rw [hget] at hcs
      injection hcs with hcs
      subst hcs
      have hmem := mem_sortCmtsAsc.mp hc
      have hp := List.of_mem_filter hmem
      simp only [Bool.and_eq_true, decide_eq_true_eq] at hp
      exact hp.2
  · intro c hc
    unfold getCommentByID at hc
    cases hfind : (deleteExpiredComments s now).comments.find?
        (fun c => c.id == cid) with
    | none => rw [hfind] at hc; cases hc
    | some c' =>
      rw [hfind] at hc
      injection hc with hc
      subst hc
      have hmem := List.mem_of_find?_eq_some hfind
      have hp := List.of_mem_filter hmem
      simpa using hp

/-- C2 witness: a live comment (expiry 200) survives the sweep at time 100
and the amended bound applies to it. -/
theorem C2_reads_respect_expiry_witness :
    getCommentByID (deleteExpiredComments storeLive 100) 2 = .ok cmtLive ∧
    (100 : Int) < cmtLive.expiresAt :=
  ⟨rfl, (C2_reads_respect_expiry storeLive 1 2 100).2 cmtLive rfl⟩

/-! ## C10 — `getComments` on an absent parent message -/

/-- C10: when no stored message has the requested id, `getComments`
returns the repository's "message not found" error (the parent check runs
before the comment query), and when the parent exists but has no live
comments the result is `ok []` — so a missing parent is distinguishable
from an empty thread. -/
theorem C10_getComments_absent_parent (s : Store) (mid now : Int) :
    ((∀ m ∈ s.messages, m.id ≠ mid) →
        getComments s mid now = .error "message not found") ∧
    (∀ m, getByID s mid = .ok m →
        s.comments.filter
          (fun c => c.messageId == mid && decide (now < c.expiresAt)) = [] →
        getComments s mid now = .ok []) := by
  constructor
  · intro habs
    have hfind : s.messages.find? (fun m => m.id == mid) = none := by
      apply List.find?_eq_none.mpr
      intro x hx
      simpa using habs x hx
    unfold getComments getByID
    rw [hfind]
  · intro m hm hf
    unfold getComments
    rw [hm, hf]
    rfl

/-- C10 witness: on the empty store, `getComments` for id 7 reports
"message not found"; on a store whose message 1 has no comments, it
returns the empty list. -/
theorem C10_getComments_absent_parent_witness :
    getComments storeEmpty 7 0 = .error "message not found" ∧
    getComments storeParent 1 0 = .ok [] :=
  ⟨(C10_getComments_absent_parent storeEmpty 7 0).1 (by simp [storeEmpty]),
   (C10_getComments_absent_parent storeParent 1 0).2 msgParent rfl rfl⟩

/-! ## C6 — the expiry sweep

`DeleteExpiredComments` removes exactly the rows with
`expires_at <= now` and is idempotent, but it returns only an error value:
the `sql.Result` carrying the affected-row count is discarded, and
`CleanupExpiredComments` likewise returns only success/failure. -/

/-- C6 counterexample: the value returned by the cleanup operation is the
same whether two comments were removed or none, so the operation does not
return the number of comments removed, contradicting that part of the
claim. -/
theorem C6_no_count_returned :
    (cleanupExpiredCommentsUC storeTwoExpired 100).1
        = (cleanupExpiredCommentsUC storeParent 100).1 ∧
    (storeTwoExpired.comments.filter (fun c => decide (c.expiresAt ≤ 100))).length = 2 ∧
    (storeParent.comments.filter (fun c => decide (c.expiresAt ≤ 100))).length = 0 := by
  refine ⟨rfl, by decide, rfl⟩

/-- C6 (amended): the sweep at time `now` keeps exactly the comments with
`now < expiresAt` (deleting exactly the expired ones), leaves messages
untouched, is idempotent, and returns only success — not a removal
count. -/
theorem C6_sweep_exact_idempotent (s : Store) (now : Int) :
    (deleteExpiredComments s now).comments
        = s.comments.filter (fun c => decide (now < c.expiresAt)) ∧
    (deleteExpiredComments s now).messages = s.messages ∧
    (∀ c ∈ s.comments,
        c ∈ (deleteExpiredComments s now).comments ↔ now < c.expiresAt) ∧
    deleteExpiredComments (deleteExpiredComments s now) now
        = deleteExpiredComments s now ∧
    cleanupExpiredCommentsUC s now = (.ok (), deleteExpiredComments s now) := by
  refine ⟨rfl, rfl, ?_, ?_, rfl⟩
  · intro c hc
    simp [deleteExpiredComments, List.mem_filter, hc]
  · unfold deleteExpiredComments
    simp [List.filter_filter]

/-- C6 witness: an expired comment (expiry 10) is gone after the sweep at
time 100. -/
theorem C6_sweep_exact_idempotent_witness :
    { cmtExpired with id := 3, expiresAt := 10 }
      ∉ (deleteExpiredComments storeTwoExpired 100).comments :=
  fun hm =>
    absurd (((C6_sweep_exact_idempotent storeTwoExpired 100).2.2.1
        { cmtExpired with id := 3, expiresAt := 10 } (by simp [storeTwoExpired])).mp hm)
      (by decide)

/-! ## C3 — content validation before persistence

`MessageUseCase.CreateMessage` / `CreateComment` reject only
`content == ""`.  The length bounds (1000 / 500) and the blank-after-trim
check live in `domain.Message.Validate` / `domain.Comment.Validate`, which
no use-case path ever calls, so over-length content is accepted, persisted
and (for messages) broadcast. -/

/-- An auth table that resolves no user at all. -/
def authNone : AuthDB := fun _ => none

/-- 1001 repetitions of 'a': one character over the message bound. -/
def longContent : String := String.mk (List.replicate 1001 'a')

/-- 501 repetitions of 'a': one character over the comment bound. -/
def longComment : String := String.mk (List.replicate 501 'a')

theorem longContent_ne_empty : longContent ≠ "" := by
  intro h
  have h1 : longContent.length = 0 := by rw [h]; rfl
  have h2 : longContent.length = 1001 := by
    show (List.replicate 1001 'a').length = 1001
    rw [List.length_replicate]
  omega

theorem longComment_ne_empty : longComment ≠ "" := by
  intro h
  have h1 : longComment.length = 0 := by rw [h]; rfl
  have h2 : longComment.length = 501 := by
    show (List.replicate 501 'a').length = 501
    rw [List.length_replicate]
  omega

/-- The over-length message row the use case persists. -/
def mLong : Message :=
  { id := 1, userId := 0, username := "u", content := longContent,
    createdAt := 5, isBanned := false }

/-- The over-length comment row the use case persists. -/
def cLong : Comment :=
  { id := 1, messageId := 1, userId := 0, username := "u",
    content := longComment, createdAt := 5, expiresAt := 5 + commentTTL }

/-- C3: content of 1001 characters (over the 1000-character message bound)
is not rejected: `createMessage` returns it as created, persists the row
and broadcasts it; likewise 501 characters (over the 500-character comment
bound) is accepted and persisted by `createComment`.  The claim demands a
`ValidationError` with no persistence call and no broadcast event. -/
theorem C3_overlength_content_accepted :
    1000 < longContent.length ∧
    createMessageUC authNone storeEmpty 5 0 "u" longContent
      = ⟨.ok mLong,
         { messages := [mLong], comments := [],
           nextMessageId := 2, nextCommentId := 1 },
         [.persistMessage mLong, .broadcast mLong]⟩ ∧
    500 < longComment.length ∧
    createCommentUC authNone storeParent 5 1 0 "u" longComment
      = ⟨.ok cLong,
         { messages := [msgParent], comments := [cLong],
           nextMessageId := 2, nextCommentId := 2 },
         [.persistComment cLong]⟩ := by
  refine ⟨?_, ?_, ?_, ?_⟩
  · have h2 : longContent.length = 1001 := by
      show (List.replicate 1001 'a').length = 1001
      rw [List.length_replicate]
    omega
  · unfold createMessageUC
    rw [if_neg longContent_ne_empty]
    rfl
  · have h2 : longComment.length = 501 := by
      show (List.replicate 501 'a').length = 501
      rw [List.length_replicate]
    omega
  · unfold createCommentUC
    rw [if_neg longComment_ne_empty]
    rfl

/-! ## C4 — ban / unban

`MessageUseCase.BanMessage` / `UnbanMessage`: absent id → the
repository's "message not found" error is returned, nothing is persisted
or broadcast; present id → the flag is flipped in storage via
`repo.Ban` / `repo.Unban` and the message is re-broadcast carrying its new
banned state. -/

/-- C4: `banMessage`/`unbanMessage` return "message not found" (with no
state change and no broadcast) when the id is absent; otherwise they set
the flag in storage — a subsequent `getByID` sees the new flag — and
publish exactly one broadcast event carrying the message with its new
banned state. -/
theorem C4_ban_unban (s : Store) (id : Int) :
    (getByID s id = .error "message not found" →
        banMessageUC s id = ⟨.error "message not found", s, []⟩ ∧
        unbanMessageUC s id = ⟨.error "message not found", s, []⟩) ∧
    (∀ m, getByID s id = .ok m →
        banMessageUC s id
          = ⟨.ok (), banRepo s id, [.broadcast { m with isBanned := true }]⟩ ∧
        getByID (banRepo s id) id = .ok { m with isBanned := true } ∧
        unbanMessageUC s id
          = ⟨.ok (), unbanRepo s id, [.broadcast { m with isBanned := false }]⟩ ∧
        getByID (unbanRepo s id) id = .ok { m with isBanned := false }) := by
  constructor
  · intro herr
    constructor
    · unfold banMessageUC
      rw [herr]
    · unfold unbanMessageUC
      rw [herr]
  · intro m hm
    have hfind : s.messages.find? (fun x => x.id == id) = some m := by
      unfold getByID at hm
      cases hf : s.messages.find? (fun x => x.id == id) with
      | none => rw [hf] at hm; cases hm
      | some m' => rw [hf] at hm; injection hm with hm; rw [hm]
    refine ⟨?_, ?_, ?_, ?_⟩
    · unfold banMessageUC
      rw [hm]
    · unfold getByID banRepo
      rw [find_map_setBanned true hfind]
    · unfold unbanMessageUC
      rw [hm]
    · unfold getByID unbanRepo
      rw [find_map_setBanned false hfind]

/-- C4 witness: banning message 1 in a store that holds it succeeds, flips
the stored flag, and broadcasts the updated message. -/
theorem C4_ban_unban_witness :
    banMessageUC storeParent 1
      = ⟨.ok (), banRepo storeParent 1,
         [.broadcast { msgParent with isBanned := true }]⟩ ∧
    getByID (banRepo storeParent 1) 1 = .ok { msgParent with isBanned := true } :=
  ⟨((C4_ban_unban storeParent 1).2 msgParent rfl).1,
   ((C4_ban_unban storeParent 1).2 msgParent rfl).2.1⟩

/-! ## C7 — deleting a message cascades to its comments -/

/-- C7: `deleteMessage(id)` removes from storage every comment whose
parent message id equals `id` and the message itself; afterwards
`getCommentById` for any former child comment — under the table invariant
that comment ids are unique — reports "comment not found", and `getByID`
for the message reports "message not found". -/
theorem C7_delete_cascades (s : Store) (id : Int) :
    (deleteMessageRepo s id).comments
        = s.comments.filter (fun c => c.messageId != id) ∧
    getByID (deleteMessageRepo s id) id = .error "message not found" ∧
    (∀ cid c, getCommentByID s cid = .ok c → c.messageId = id →
        (s.comments.map Comment.id).Nodup →
        getCommentByID (deleteMessageRepo s id) cid
          = .error "comment not found") := by
  refine ⟨rfl, ?_, ?_⟩
  · have hfind : (deleteMessageRepo s id).messages.find?
        (fun m => m.id == id) = none := by
      apply List.find?_eq_none.mpr
      intro x hx
      have hx' := List.of_mem_filter hx
      simpa using hx'
    unfold getByID
    rw [hfind]
  · intro cid c hc hparent hnd
    have hfind : s.comments.find? (fun x => x.id == cid) = some c := by
      unfold getCommentByID at hc
      cases hf : s.comments.find? (fun x => x.id == cid) with
      | none => rw [hf] at hc; cases hc
      | some c' => rw [hf] at hc; injection hc with hc; rw [hc]
    have hcmem : c ∈ s.comments := List.mem_of_find?_eq_some hfind
    have hcid : c.id = cid := by
      have := List.find?_some hfind
      simpa using this
    have hnone : (deleteMessageRepo s id).comments.find?
        (fun x => x.id == cid) = none := by
      apply List.find?_eq_none.mpr
      intro x hx
      have hxmem := List.mem_of_mem_filter hx
      have hxkeep : x.messageId ≠ id := by
        have := List.of_mem_filter hx
        simpa using this
      intro hxid
      have hxid' : x.id = cid := by simpa using hxid
      have hxc : x = c :=
        List.inj_on_of_nodup_map hnd hxmem hcmem (by rw [hxid', hcid])
      rw [hxc] at hxkeep
      exact hxkeep hparent
    unfold getCommentByID
    rw [hnone]

/-- C7 witness: deleting message 1 removes its child comment 2; the child
lookup then fails with "comment not found" and the message lookup with
"message not found". -/
theorem C7_delete_cascades_witness :
    getCommentByID (deleteMessageRepo storeLive 1) 2 = .error "comment not found" ∧
    getByID (deleteMessageRepo storeLive 1) 1 = .error "message not found" :=
  ⟨(C7_delete_cascades storeLive 1).2.2 2 cmtLive rfl rfl (by simp [storeLive]),
   (C7_delete_cascades storeLive 1).2.1⟩

/-! ## C8 — the auth gate on creation -/

/-- C8: for non-zero `userId`, `createMessage` and `createComment` consult
the auth collaborator before persisting: an unresolvable user or a banned
user aborts the call with only the lookup in the effect trace — no
persistence, no broadcast, store unchanged; when the lookup succeeds with
a non-banned user the trace shows the lookup strictly before the persist
and broadcast.  For `userId == 0` the result is independent of the auth
collaborator entirely (the lookup is skipped), and with non-empty content
the call succeeds. -/
theorem C8_auth_gate (auth : AuthDB) (s : Store) (now mid userID : Int)
    (username content : String) :
    (content ≠ "" → userID ≠ 0 → auth userID = none →
        createMessageUC auth s now userID username content
          = ⟨.error "user not found", s, [.lookupUser userID]⟩ ∧
        createCommentUC auth s now mid userID username content
          = ⟨.error "user not found", s, [.lookupUser userID]⟩) ∧
    (∀ u, content ≠ "" → userID ≠ 0 → auth userID = some u →
        u.isBanned = true →
        createMessageUC auth s now userID username content
          = ⟨.error "user is banned", s, [.lookupUser userID]⟩ ∧
        createCommentUC auth s now mid userID username content
          = ⟨.error "user is banned", s, [.lookupUser userID]⟩) ∧
    (∀ u, content ≠ "" → userID ≠ 0 → auth userID = some u →
        u.isBanned = false →
        (createMessageUC auth s now userID username content).effects
          = [.lookupUser userID,
             .persistMessage { id := s.nextMessageId, userId := userID,
                               username := username, content := content,
                               createdAt := now, isBanned := false },
             .broadcast { id := s.nextMessageId, userId := userID,
                          username := username, content := content,
                          createdAt := now, isBanned := false }]) ∧
    (∀ auth2 : AuthDB,
        createMessageUC auth s now 0 username content
          = createMessageUC auth2 s now 0 username content ∧
        createCommentUC auth s now mid 0 username content
          = createCommentUC auth2 s now mid 0 username content) ∧
    (content ≠ "" →
        (createMessageUC auth s now 0 username content).result
          = .ok { id := s.nextMessageId, userId := 0, username := username,
                  content := content, createdAt := now, isBanned := false }) := by
  refine ⟨?_, ?_, ?_, ?_, ?_⟩
  · intro hcne hu0 hauth
    constructor
    · unfold createMessageUC
      rw [if_neg hcne, if_neg hu0, hauth]
    · unfold createCommentUC
      rw [if_neg hcne, if_neg hu0, hauth]
  · intro u hcne hu0 hauth hub
    constructor
    · unfold createMessageUC
      rw [if_neg hcne, if_neg hu0, hauth]
      simp only [if_pos hub]
    · unfold createCommentUC
      rw [if_neg hcne, if_neg hu0, hauth]
      simp only [if_pos hub]
  · intro u hcne hu0 hauth hub
    unfold createMessageUC
    rw [if_neg hcne, if_neg hu0, hauth]
    simp only [hub, Bool.false_eq_true, if_false]
    rfl
  · intro auth2
    constructor
    · unfold createMessageUC
      by_cases hc : content = ""
      · rw [if_pos hc, if_pos hc]
      · rw [if_neg hc, if_neg hc, if_pos rfl, if_pos rfl]
    · unfold createCommentUC
      by_cases hc : content = ""
      · rw [if_pos hc, if_pos hc]
      · rw [if_neg hc, if_neg hc, if_pos rfl, if_pos rfl]
  · intro hcne
    unfold createMessageUC
    rw [if_neg hcne, if_pos rfl]
    rfl

/-- A user the auth collaborator reports as banned. -/
def uBanned : User :=
  { id := 9, username := "bad", role := "user", isBanned := true }

/-- An auth table resolving only user 9, who is banned. -/
def authTable : AuthDB := fun i => if i = 9 then some uBanned else none

/-- C8 witness: creating a message as banned user 9 aborts with "user is
banned", performs only the lookup, and changes nothing; as unresolvable
user 7 it aborts with "user not found". -/
theorem C8_auth_gate_witness :
    createMessageUC authTable storeEmpty 5 9 "u" "hi"
      = ⟨.error "user is banned", storeEmpty, [.lookupUser 9]⟩ ∧
    createMessageUC authTable storeEmpty 5 7 "u" "hi"
      = ⟨.error "user not found", storeEmpty, [.lookupUser 7]⟩ :=
  ⟨((C8_auth_gate authTable storeEmpty 5 1 9 "u" "hi").2.1 uBanned
      (by decide) (by decide) rfl rfl).1,
   ((C8_auth_gate authTable storeEmpty 5 1 7 "u" "hi").1
      (by decide) (by decide) rfl).1⟩

/-! ## C5 — a full outbound queue disconnects only that session -/

theorem lookupClient_publish_full {h : HubState} {e : String} {sid : Nat}
    {c : HClient} (hnd : (h.map HClient.sid).Nodup)
    (hc : lookupClient h sid = some c) (hfull : ¬ c.queue.length < c.cap) :
    lookupClient (hubPublish h e) sid = none := by
  induction h with
  | nil => cases hc
  | cons x xs ih =>
    rw [List.map_cons, List.nodup_cons] at hnd
    obtain ⟨hx_notin, hnd'⟩ := hnd
    by_cases hxs : (x.sid == sid) = true
    · have hcx : c = x := by
        unfold lookupClient at hc
        rw [List.find?_cons_of_pos (p := fun (y : HClient) => y.sid == sid) _ hxs] at hc
        injection hc with hc
        rw [hc]
      subst hcx
      unfold hubPublish
      rw [List.filterMap_cons, if_neg hfull]
      have hxsn : lookupClient xs sid = none := by
        apply List.find?_eq_none.mpr
        intro y hy
        have : y.sid ≠ c.sid := by
          intro hEq
          exact hx_notin (hEq ▸ List.mem_map_of_mem HClient.sid hy)
        have hcsid : c.sid = sid := by simpa using hxs
        simp only [beq_iff_eq]
        intro hy2
        exact this (by rw [hy2, hcsid])
      exact lookupClient_publish_none hxsn
    · have hc' : lookupClient xs sid = some c := by
        unfold lookupClient at hc ⊢
        rwa [List.find?_cons_of_neg (p := fun (y : HClient) => y.sid == sid) _ hxs] at hc
      unfold hubPublish
      rw [List.filterMap_cons]
      by_cases hq : x.queue.length < x.cap
      · rw [if_pos hq]
        exact Eq.trans
          (List.find?_cons_of_neg (p := fun (y : HClient) => y.sid == sid)
            (a := { x with queue := x.queue ++ [e] }) (hubPublish xs e) hxs)
          (ih hnd' hc')
      · rw [if_neg hq]
        exact ih hnd' hc'

theorem lookupClient_publish_room {h : HubState} {e : String} {sid : Nat}
    {c : HClient} (hc : lookupClient h sid = some c)
    (hroom : c.queue.length < c.cap) :
    lookupClient (hubPublish h e) sid = some { c with queue := c.queue ++ [e] } := by
  induction h with
  | nil => cases hc
  | cons x xs ih =>
    by_cases hxs : (x.sid == sid) = true
    · have hcx : c = x := by
        unfold lookupClient at hc
        rw [List.find?_cons_of_pos (p := fun (y : HClient) => y.sid == sid) _ hxs] at hc
        injection hc with hc
        rw [hc]
      subst hcx
      unfold hubPublish
      rw [List.filterMap_cons, if_pos hroom]
      unfold lookupClient
      exact List.find?_cons_of_pos (p := fun (y : HClient) => y.sid == sid) _ hxs
    · have hc' : lookupClient xs sid = some c := by
        unfold lookupClient at hc ⊢
        rwa [List.find?_cons_of_neg (p := fun (y : HClient) => y.sid == sid) _ hxs] at hc
      unfold hubPublish
      rw [List.filterMap_cons]
      by_cases hq : x.queue.length < x.cap
      · rw [if_pos hq]
        exact Eq.trans
          (List.find?_cons_of_neg (p := fun (y : HClient) => y.sid == sid)
            (a := { x with queue := x.queue ++ [e] }) (hubPublish xs e) hxs)
          (ih hc')
      · rw [if_neg hq]
        exact ih hc'

/-- C5: when an event is published, a registered session whose queue is
full is removed from the live set — it does not receive this event and no
event from any later publish reaches it (its session id no longer resolves
in the hub) — while any other registered session whose queue has room
receives the event appended to its queue and remains registered.  The
hypothesis that session ids are distinct mirrors the Go map keyed by the
client. -/
theorem C5_full_queue_disconnect (h : HubState) (e : String) (sid : Nat)
    (c : HClient) (hnd : (h.map HClient.sid).Nodup)
    (hc : lookupClient h sid = some c) :
    (c.cap ≤ c.queue.length →
        lookupClient (hubPublish h e) sid = none ∧
        ∀ es, lookupClient (hubPublishAll (hubPublish h e) es) sid = none) ∧
    (c.queue.length < c.cap →
        lookupClient (hubPublish h e) sid
          = some { c with queue := c.queue ++ [e] }) := by
  constructor
  · intro hfull
    have hrm : lookupClient (hubPublish h e) sid = none :=
      lookupClient_publish_full hnd hc (by omega)
    exact ⟨hrm, fun es => lookupClient_publishAll_none es _ hrm⟩
  · intro hroom
    exact lookupClient_publish_room hc hroom

/-- A hub with session 1 (capacity 1, queue full) and session 2
(capacity 4, queue empty). -/
def hubW : HubState := [⟨1, 1, ["x"]⟩, ⟨2, 4, []⟩]

/-- C5 witness: publishing to `hubW` drops full session 1 from the live
set while session 2 receives the event and stays registered. -/
theorem C5_full_queue_disconnect_witness :
    lookupClient (hubPublish hubW "e") 1 = none ∧
    lookupClient (hubPublish hubW "e") 2 = some ⟨2, 4, ["e"]⟩ :=
  ⟨((C5_full_queue_disconnect hubW "e" 1 ⟨1, 1, ["x"]⟩ (by decide) rfl).1
      (by decide)).1,
   (C5_full_queue_disconnect hubW "e" 2 ⟨2, 4, []⟩ (by decide) rfl).2
      (by decide)⟩

/-! ## C9 — unregister is idempotent -/

/-- C9: unregistering a session id that is not in the live set leaves the
hub unchanged, and unregistering twice in a row equals unregistering
once. -/
theorem C9_unregister_idempotent (h : HubState) (sid : Nat) :
    (lookupClient h sid = none → hubUnregister h sid = h) ∧
    hubUnregister (hubUnregister h sid) sid = hubUnregister h sid := by
  constructor
  · intro hn
    have hall := List.find?_eq_none.mp hn
    apply List.filter_eq_self.mpr
    intro a ha
    simpa using hall a ha
  · unfold hubUnregister
    rw [List.filter_filter]
    simp

/-- A hub holding only session 1. -/
def hubOne : HubState := [⟨1, 2, []⟩]

/-- C9 witness: unregistering absent session 5 is a no-op. -/
theorem C9_unregister_idempotent_witness :
    hubUnregister hubOne 5 = hubOne :=
  (C9_unregister_idempotent hubOne 5).1 rfl

end Forum
